import Mathlib

/-!
Shallow embedding of the CFO-Copilot core (src/agent/tools.py) over lists and
exact rationals.  Pandas DataFrames become lists of records; a float NaN
becomes `Option.none`; a Python exception becomes `Except.error`.  All
definitions are executable.
-/

deriving instance DecidableEq for Except

/-! ## Character and string utilities (Python `str` operations on char lists) -/

def isAsciiUpperCh (c : Char) : Bool := 'A' ≤ c && c ≤ 'Z'

def isAZ (c : Char) : Bool := 'a' ≤ c && c ≤ 'z'

/-- Python `str.lower` (ASCII fragment). -/
def charLower (c : Char) : Char :=
  if isAsciiUpperCh c then Char.ofNat (c.toNat + 32) else c

def isWsCh (c : Char) : Bool := c == ' ' || c == '\t' || c == '\n' || c == '\r'

/-- Python `str.strip` on a char list. -/
def trimChars (l : List Char) : List Char :=
  ((l.dropWhile isWsCh).reverse.dropWhile isWsCh).reverse

/-- `text.lower().strip()` as a char list. -/
def normChars (s : String) : List Char := trimChars (s.toList.map charLower)

def startsWithChars : List Char → List Char → Bool
  | [], _ => true
  | _ :: _, [] => false
  | a :: as, b :: bs => a == b && startsWithChars as bs

/-- Python substring containment (`needle in hay`). -/
def containsChars (needle : List Char) : List Char → Bool
  | [] => startsWithChars needle []
  | hay@(_ :: rest) => startsWithChars needle hay || containsChars needle rest

/-- Python word character class `\w` (ASCII fragment). -/
def isWordCh (c : Char) : Bool := c.isAlphanum || c == '_'

/-- Lexicographic order on char lists by code point (Python string `<=`). -/
def charsLeB : List Char → List Char → Bool
  | [], _ => true
  | _ :: _, [] => false
  | a :: as, b :: bs =>
    if a.val < b.val then true else if b.val < a.val then false else charsLeB as bs

def strLeB (a b : String) : Bool := charsLeB a.toList b.toList

def strLe (a b : String) : Prop := strLeB a b = true

instance : DecidableRel strLe := fun a b => inferInstanceAs (Decidable (strLeB a b = true))

/-- Ascending lexicographic sort (`sorted(...)` on month strings). -/
def sortStr (l : List String) : List String := List.insertionSort strLe l

/-- `sorted(series.unique())`: the distinct values in ascending order. -/
def sortedUnique (l : List String) : List String := sortStr l.dedup

/-- Python slice `l[-n:]` (for `n = 0` the whole list, Python semantics). -/
def sliceLast (n : Nat) (l : List α) : List α :=
  if n = 0 then l else l.drop (l.length - n)

def digitChar (n : Nat) : Char := Char.ofNat ('0'.toNat + n)

/-- `f"{y:04d}"` as a char list (zero padded to width 4; wider numbers kept whole). -/
def pad4L (y : Nat) : List Char :=
  if y ≤ 9999 then
    [digitChar (y / 1000 % 10), digitChar (y / 100 % 10), digitChar (y / 10 % 10), digitChar (y % 10)]
  else (toString y).toList

/-- `f"{m:02d}"` as a char list. -/
def pad2L (m : Nat) : List Char :=
  if m ≤ 99 then [digitChar (m / 10 % 10), digitChar (m % 10)] else (toString m).toList

/-- `f"{y:04d}-{m:02d}"`. -/
def fmtYM (y m : Nat) : String := String.mk (pad4L y ++ '-' :: pad2L m)

/-! ## Data model (§3 of the spec; `FinanceData` in tools.py) -/

structure LedgerRow where
  month : String
  account_category : String
  amount : Rat
  currency : String
deriving DecidableEq

structure FxRate where
  month : String
  currency : String
  rate_to_usd : Rat
deriving DecidableEq

structure CashPoint where
  month : String
  cash_usd : Rat
deriving DecidableEq

structure FinanceData where
  actuals : List LedgerRow
  budget : List LedgerRow
  fx : List FxRate
  cash : List CashPoint
deriving DecidableEq

/-- A ledger row with the merged `usd` column; `none` models a float NaN. -/
structure UsdRow where
  month : String
  account_category : String
  amount : Rat
  currency : String
  usd : Option Rat
deriving DecidableEq

/-! ## Currency normalizer: `to_usd` -/

/-- The FX rows matching a ledger row's (month, currency) key. -/
def fxMatches (fx : List FxRate) (r : LedgerRow) : List FxRate :=
  fx.filter (fun f => f.month == r.month && f.currency == r.currency)

/-- One input row after the left merge: no key match gives a NaN usd
(`amount * NaN = NaN`); each matching FX row produces one output row. -/
def rowExpand (fx : List FxRate) (r : LedgerRow) : List UsdRow :=
  match fxMatches fx r with
  | [] => [{ month := r.month, account_category := r.account_category, amount := r.amount,
             currency := r.currency, usd := none }]
  | ms => ms.map (fun f => { month := r.month, account_category := r.account_category,
                             amount := r.amount, currency := r.currency,
                             usd := some (r.amount * f.rate_to_usd) })

/-- `to_usd(df, fx)`: left merge on (month, currency), then `usd = amount * rate_to_usd`.
An empty input gives the empty frame (with the usd column present by type). -/
def to_usd : List LedgerRow → List FxRate → List UsdRow
  | [], _ => []
  | r :: rs, fx => rowExpand fx r ++ to_usd rs fx

/-- `series.sum()` with pandas `skipna=True`: a NaN entry contributes zero. -/
def usdSum (rows : List UsdRow) : Rat :=
  (rows.map (fun r => r.usd.getD 0)).sum

/-- A cell of `pivot_table(index="month", columns="account_category", values="usd",
aggfunc="sum").fillna(0.0)`: the NaN-skipping sum of usd over the rows with the
given month and category (0 when no such row). -/
def pivotCell (rows : List UsdRow) (m cat : String) : Rat :=
  usdSum (rows.filter (fun r => r.month == m && r.account_category == cat))

/-! ## `month_str`: month canonicalization -/

/-- `re.fullmatch(r"\d\x7b4\x7d-\d\x7b2\x7d", s)`: exactly `YYYY-MM`, digits only. -/
def isCanonicalMonth (s : String) : Bool :=
  match s.toList with
  | [a, b, c, d, e, f, g] =>
    a.isDigit && b.isDigit && c.isDigit && d.isDigit && e == '-' && f.isDigit && g.isDigit
  | _ => false

def monthAbbr : List (List Char) :=
  [['j','a','n'], ['f','e','b'], ['m','a','r'], ['a','p','r'], ['m','a','y'], ['j','u','n'],
   ['j','u','l'], ['a','u','g'], ['s','e','p'], ['o','c','t'], ['n','o','v'], ['d','e','c']]

def monthFull : List (List Char) :=
  [['j','a','n','u','a','r','y'], ['f','e','b','r','u','a','r','y'], ['m','a','r','c','h'],
   ['a','p','r','i','l'], ['m','a','y'], ['j','u','n','e'], ['j','u','l','y'],
   ['a','u','g','u','s','t'], ['s','e','p','t','e','m','b','e','r'],
   ['o','c','t','o','b','e','r'], ['n','o','v','e','m','b','e','r'],
   ['d','e','c','e','m','b','e','r']]

/-- Try the month words in order at the head of the list; on a hit return the
month number and the remaining chars. -/
def matchMonthWord (words : List (List Char)) (i : Nat) (l : List Char) :
    Option (Nat × List Char) :=
  match words with
  | [] => none
  | w :: ws =>
    if startsWithChars w l then some (i, l.drop w.length) else matchMonthWord ws (i + 1) l

/-- Four decimal digits at the head of the list. -/
def matchYear4 : List Char → Option (Nat × List Char)
  | a :: b :: c :: d :: rest =>
    if a.isDigit && b.isDigit && c.isDigit && d.isDigit then
      some ((a.toNat - 48) * 1000 + (b.toNat - 48) * 100 + (c.toNat - 48) * 10 + (d.toNat - 48),
            rest)
    else none
  | _ => none

/-- At least one whitespace char, then the rest. -/
def matchWs1 (l : List Char) : Option (List Char) :=
  match l with
  | c :: rest => if isWsCh c then some (rest.dropWhile isWsCh) else none
  | [] => none

/-- Modelled from the external library `dateutil.parser.parse` (not part of this
repository): the fragment of parseable date strings relevant here, namely
`"<month name> YYYY"` (full or three-letter name, any case) and `"YYYY-M"`
(single-digit month), mapped to (year, month).  Every other string is treated
as unparseable (`none`), matching `month_str`'s `except` fallback. -/
def dateParse (s : String) : Option (Nat × Nat) :=
  let l := trimChars (s.toList.map charLower)
  match matchMonthWord monthFull 1 l with
  | some (m, rest) =>
    match matchWs1 rest with
    | some rest2 =>
      match matchYear4 rest2 with
      | some (y, []) => some (y, m)
      | _ => none
    | none => none
  | none =>
  match matchMonthWord monthAbbr 1 l with
  | some (m, rest) =>
    match matchWs1 rest with
    | some rest2 =>
      match matchYear4 rest2 with
      | some (y, []) => some (y, m)
      | _ => none
    | none => none
  | none =>
  match matchYear4 l with
  | some (y, '-' :: d :: []) =>
    if d.isDigit && '1' ≤ d then some (y, d.toNat - 48) else none
  | _ => none

/-- The `dt_like` argument of `month_str`: a string or a `pd.Timestamp`
(represented by its year and month; pandas timestamps always have
`year ≤ 9999` and `month ≤ 12`). -/
inductive MonthArg
  | str (s : String)
  | ts (year month : Nat)
deriving DecidableEq

/-- `month_str(dt_like)`: a timestamp is formatted `"%Y-%m"`; a string already of
shape `YYYY-MM` is returned unchanged; otherwise a date-parse is attempted and
formatted; an unparseable string is returned verbatim. -/
def month_str : MonthArg → String
  | .ts y m => fmtYM y m
  | .str s =>
    if isCanonicalMonth s then s
    else
      match dateParse s with
      | some (y, m) => fmtYM y m
      | none => s

/-- `latest_month(all_months) = sorted(all_months)[-1]`; `none` models the
IndexError raised on an empty list. -/
def latest_month (all_months : List String) : Option String :=
  (sortStr all_months).getLast?

/-! ## Number formatting (Python `format` fragments used in answer strings) -/

/-- Round to the nearest integer, ties to even (CPython float formatting). -/
def roundHalfEven (q : Rat) : Int :=
  let f : Int := q.floor
  let fr : Rat := q - (f : Rat)
  if fr < 1/2 then f else if 1/2 < fr then f + 1 else if f % 2 = 0 then f else f + 1

/-- Insert a comma after every three chars (input is the reversed digit list). -/
def group3 : List Char → List Char
  | a :: b :: c :: rest@(_ :: _) => a :: b :: c :: ',' :: group3 rest
  | l => l

/-- `f"{q:,.0f}"`: grouped thousands, no decimals. -/
def fmtThousands0 (q : Rat) : String :=
  let n := roundHalfEven q
  let sign := if n < 0 ∨ (n = 0 ∧ q < 0) then "-" else ""
  sign ++ String.mk ((group3 (toString n.natAbs).toList.reverse).reverse)

/-- `f"{q:.1f}"`: one decimal place. -/
def fmtFixed1 (q : Rat) : String :=
  let n := roundHalfEven (q * 10)
  let sign := if n < 0 ∨ (n = 0 ∧ q < 0) then "-" else ""
  sign ++ toString (n.natAbs / 10) ++ "." ++ toString (n.natAbs % 10)

/-- `f"{q*100:.1f}"` where `q` may be NaN (Python renders NaN as `"nan"`). -/
def fmtPct1 (q : Option Rat) : String :=
  match q with
  | none => "nan"
  | some p => fmtFixed1 (p * 100)

/-! ## Metric engine -/

/-- Is some row of the frame tagged with this exact account category?  (This is
when the category appears as a `pivot_table` column.) -/
def hasCategory (rows : List LedgerRow) (c : String) : Bool :=
  rows.any (fun r => r.account_category == c)

/-- `account_category.str.startswith("Opex:")`. -/
def isOpexCat (c : String) : Bool := startsWithChars ['O','p','e','x',':'] c.toList

structure RevenueVsBudget where
  month : String
  actual_usd : Rat
  budget_usd : Rat
  variance_usd : Rat
  variance_pct : Option Rat
deriving DecidableEq

/-- `revenue_vs_budget_usd(fin, month)`: filter both frames to the canonicalized
month and category "Revenue", normalize to USD, sum; `variance_pct` is NaN
(`none`) exactly when `budget_usd` is zero (Python falsy float). -/
def revenue_vs_budget_usd (fin : FinanceData) (month : MonthArg) : RevenueVsBudget :=
  let m := month_str month
  let a := fin.actuals.filter (fun r => r.month == m && r.account_category == "Revenue")
  let b := fin.budget.filter (fun r => r.month == m && r.account_category == "Revenue")
  let a_usd := usdSum (to_usd a fin.fx)
  let b_usd := usdSum (to_usd b fin.fx)
  { month := m, actual_usd := a_usd, budget_usd := b_usd, variance_usd := a_usd - b_usd,
    variance_pct := if b_usd = 0 then none else some ((a_usd - b_usd) / b_usd) }

structure GmRow where
  month : String
  gm_pct : Option Rat
deriving DecidableEq

/-- `gross_margin_pct_trend(fin, months)`: rows of the month-by-category pivot of
the Actuals restricted to `months`.  The pivot's index holds only months present
in the filtered frame, and `pt.get("Revenue", 0.0)` returns the float `0.0`
(not a Series) when no filtered row is tagged "Revenue", so the subsequent
`rev.replace` raises `AttributeError` (`Except.error`).  `gm_pct` is NaN when
the Revenue cell is zero (`rev.replace(0, np.nan)` poisons the division). -/
def gross_margin_pct_trend (fin : FinanceData) (months : List String) :
    Except String (List GmRow) :=
  let filt := fin.actuals.filter (fun r => months.contains r.month)
  let a := to_usd filt fin.fx
  if hasCategory filt "Revenue" then
    .ok ((sortedUnique (filt.map (·.month))).map (fun m =>
      let rev := pivotCell a m "Revenue"
      let cogs := pivotCell a m "COGS"
      { month := m, gm_pct := if rev = 0 then none else some ((rev - cogs) / rev) }))
  else .error "AttributeError"

structure OpexRow where
  account_category : String
  usd : Rat
deriving DecidableEq

/-- Descending order on the usd column (`sort_values(ascending=False)`). -/
def usdGe (a b : OpexRow) : Prop := b.usd ≤ a.usd

instance : DecidableRel usdGe := fun a b => inferInstanceAs (Decidable (b.usd ≤ a.usd))

/-- `opex_breakdown_usd(fin, month)`: the "Opex:"-prefixed rows of the month,
USD-normalized, summed per category (groupby yields ascending category keys),
sorted by usd descending; an empty filter short-circuits to the empty frame. -/
def opex_breakdown_usd (fin : FinanceData) (month : MonthArg) : List OpexRow :=
  let m := month_str month
  let a := fin.actuals.filter (fun r => r.month == m && isOpexCat r.account_category)
  if a.isEmpty then []
  else
    let u := to_usd a fin.fx
    List.insertionSort usdGe ((sortedUnique (a.map (·.account_category))).map (fun c =>
      { account_category := c, usd := usdSum (u.filter (fun r => r.account_category == c)) }))

structure EbitdaRow where
  month : String
  EBITDA : Rat
  Opex_total : Rat
  Revenue : Rat
  COGS : Rat
deriving DecidableEq

/-- The `Opex_total` pivot column: sum of all "Opex:"-prefixed usd for a month. -/
def opexTotalAt (rows : List UsdRow) (m : String) : Rat :=
  usdSum (rows.filter (fun r => r.month == m && isOpexCat r.account_category))

/-- The EBITDA value of one pivot row. -/
def ebitdaAt (rows : List UsdRow) (m : String) : Rat :=
  pivotCell rows m "Revenue" - pivotCell rows m "COGS" - opexTotalAt rows m

/-- `ebitda_by_month(fin)`: one row per distinct Actuals month, ascending.  The
final column selection `pt[["EBITDA","Opex_total","Revenue","COGS"]]` raises
`KeyError` when "Revenue" or "COGS" never occurs in Actuals (then it is not a
pivot column); `pt.get` defaults cover only the arithmetic before it. -/
def ebitda_by_month (fin : FinanceData) : Except String (List EbitdaRow) :=
  let a := to_usd fin.actuals fin.fx
  if hasCategory fin.actuals "Revenue" && hasCategory fin.actuals "COGS" then
    .ok ((sortedUnique (fin.actuals.map (·.month))).map (fun m =>
      { month := m, EBITDA := ebitdaAt a m, Opex_total := opexTotalAt a m,
        Revenue := pivotCell a m "Revenue", COGS := pivotCell a m "COGS" }))
  else .error "KeyError"

/-- `runway_months`: a number, `np.inf`, or NaN (cash lookup failed). -/
inductive RunwayVal
  | inf
  | nan
  | val (q : Rat)
deriving DecidableEq

structure CashRunway where
  as_of : String
  cash_usd : Option Rat
  avg_net_burn_usd : Rat
  runway_months : RunwayVal
  note : String
deriving DecidableEq

/-- `cash_runway_now(fin)`: latest Cash month (IndexError on an empty Cash
table), its balance, the mean of `max(0, -EBITDA)` over the (up to) 3 latest
Actuals months, and the runway figure/note.  The inner `ebitda_by_month` call
propagates its KeyError. -/
def cash_runway_now (fin : FinanceData) : Except String CashRunway :=
  match latest_month ((fin.cash.map (·.month)).dedup) with
  | none => .error "IndexError"
  | some latest =>
    let cash_usd : Option Rat :=
      ((fin.cash.filter (fun c => c.month == latest)).map (·.cash_usd)).head?
    match ebitda_by_month fin with
    | .error e => .error e
    | .ok _ =>
      let a := to_usd fin.actuals fin.fx
      let last3 := sliceLast 3 (sortedUnique (fin.actuals.map (·.month)))
      let burns := last3.map (fun m => max 0 (-(ebitdaAt a m)))
      let avg_burn := burns.sum / (burns.length : Rat)
      if avg_burn = 0 then
        .ok { as_of := latest, cash_usd := cash_usd, avg_net_burn_usd := avg_burn,
              runway_months := .inf,
              note := "Profitable over the last 3 months (no net burn). Runway: N/A" }
      else
        match cash_usd with
        | some c =>
          .ok { as_of := latest, cash_usd := some c, avg_net_burn_usd := avg_burn,
                runway_months := .val (c / avg_burn),
                note := "~" ++ fmtFixed1 (c / avg_burn) ++ " months of runway" }
        | none =>
          .ok { as_of := latest, cash_usd := none, avg_net_burn_usd := avg_burn,
                runway_months := .nan, note := "~nan months of runway" }

/-! ## Text interpreter -/

/-- Generic leftmost `re.search`: try the matcher at every position, left to right. -/
def scanWith (f : List Char → Option α) : List Char → Option α
  | [] => none
  | l@(_ :: rest) => match f l with | some r => some r | none => scanWith f rest

/-- `[12][0-9]\x7b3\x7d` at the head: a year 1000-2999. -/
def matchYear12 : List Char → Option Nat
  | a :: b :: c :: d :: _ =>
    if (a == '1' || a == '2') && b.isDigit && c.isDigit && d.isDigit then
      some ((a.toNat - 48) * 1000 + (b.toNat - 48) * 100 + (c.toNat - 48) * 10 + (d.toNat - 48))
    else none
  | _ => none

/-- Pattern `(jan|feb|...|dec)[a-z]*\s+([12][0-9]\x7b3\x7d)` anchored here:
month abbreviation, trailing letters, whitespace, a 4-digit year. -/
def pat1At (l : List Char) : Option (Nat × Nat) :=
  match matchMonthWord monthAbbr 1 l with
  | none => none
  | some (mi, rest) =>
    match matchWs1 (rest.dropWhile isAZ) with
    | none => none
    | some rest2 => (matchYear12 rest2).map (fun y => (mi, y))

/-- Pattern `([12][0-9]\x7b3\x7d)-(0[1-9]|1[0-2])` anchored here; returns the
matched seven chars. -/
def pat2At : List Char → Option (List Char)
  | a :: b :: c :: d :: '-' :: e :: f :: _ =>
    if (a == '1' || a == '2') && b.isDigit && c.isDigit && d.isDigit &&
       ((e == '0' && '1' ≤ f && f ≤ '9') || (e == '1' && '0' ≤ f && f ≤ '2')) then
      some [a, b, c, d, '-', e, f]
    else none
  | _ => none

/-- Pattern `for\s+(jan|...|dec)[a-z]*` anchored here; returns the month number. -/
def pat3At (l : List Char) : Option Nat :=
  if startsWithChars ['f','o','r'] l then
    match matchWs1 (l.drop 3) with
    | none => none
    | some rest => (matchMonthWord monthAbbr 1 rest).map (·.1)
  else none

/-- `extract_month_from_text(text)`: "<Mon> YYYY" gives the canonical month;
a literal "YYYY-MM" is returned as matched; "for <Mon>" gives the partial
marker "XXXX-MM"; otherwise `none`. -/
def extract_month_from_text (text : String) : Option String :=
  let tl := text.toList.map charLower
  match scanWith pat1At tl with
  | some (mi, y) => some (fmtYM y mi)
  | none =>
  match scanWith pat2At tl with
  | some cs => some (String.mk cs)
  | none =>
  match scanWith pat3At tl with
  | some mi => some ("XXXX-" ++ String.mk (pad2L mi))
  | none => none

def digitsVal (ds : List Char) : Nat := ds.foldl (fun acc c => acc * 10 + (c.toNat - 48)) 0

/-- `\d+` (greedy, at least one digit) at the head. -/
def matchDigits1 (l : List Char) : Option (Nat × List Char) :=
  match l with
  | c :: _ =>
    if c.isDigit then some (digitsVal (l.takeWhile Char.isDigit), l.dropWhile Char.isDigit)
    else none
  | [] => none

/-- Pattern `last\s+(\d+)\s+months?` anchored here. -/
def lastNDigitsAt (l : List Char) : Option Nat :=
  if startsWithChars ['l','a','s','t'] l then
    match matchWs1 (l.drop 4) with
    | none => none
    | some r1 =>
      match matchDigits1 r1 with
      | none => none
      | some (n, r2) =>
        match matchWs1 r2 with
        | none => none
        | some r3 => if startsWithChars ['m','o','n','t','h'] r3 then some n else none
  else none

def numWords : List (List Char × Nat) :=
  [(['o','n','e'], 1), (['t','w','o'], 2), (['t','h','r','e','e'], 3), (['f','o','u','r'], 4),
   (['f','i','v','e'], 5), (['s','i','x'], 6), (['s','e','v','e','n'], 7),
   (['e','i','g','h','t'], 8), (['n','i','n','e'], 9), (['t','e','n'], 10),
   (['e','l','e','v','e','n'], 11), (['t','w','e','l','v','e'], 12)]

def tryNumWord : List (List Char × Nat) → List Char → Option (Nat × List Char)
  | [], _ => none
  | (w, v) :: ws, l =>
    if startsWithChars w l then some (v, l.drop w.length) else tryNumWord ws l

/-- Pattern `last\s+(one|...|twelve)\s+months?` anchored here. -/
def lastNWordsAt (l : List Char) : Option Nat :=
  if startsWithChars ['l','a','s','t'] l then
    match matchWs1 (l.drop 4) with
    | none => none
    | some r1 =>
      match tryNumWord numWords r1 with
      | none => none
      | some (v, r2) =>
        match matchWs1 r2 with
        | none => none
        | some r3 => if startsWithChars ['m','o','n','t','h'] r3 then some v else none
  else none

/-- `parse_last_n_months(text)`: "last N months" by digits, else spelled out
one..twelve, else `none`. -/
def parse_last_n_months (text : String) : Option Nat :=
  let tl := text.toList.map charLower
  match scanWith lastNDigitsAt tl with
  | some n => some n
  | none => scanWith lastNWordsAt tl

def boundaryOk : Option Char → Bool
  | none => true
  | some p => !isWordCh p

def tailBoundaryOk : List Char → Bool
  | [] => true
  | c :: _ => !isWordCh c

/-- `re.search(r"\brunway\b", t)`: "runway" delimited by word boundaries. -/
def wordRunwayScan : Option Char → List Char → Bool
  | _, [] => false
  | prev, l@(c :: rest) =>
    (boundaryOk prev && startsWithChars ['r','u','n','w','a','y'] l &&
      tailBoundaryOk (l.drop 6)) ||
    wordRunwayScan (some c) rest

def hasWordRunway (l : List Char) : Bool := wordRunwayScan none l

/-- Rule 1: contains "cash runway" or the standalone word "runway". -/
def ruleCash (t : List Char) : Bool :=
  containsChars "cash runway".toList t || hasWordRunway t

/-- Rule 2: contains "revenue" and one of "vs", "versus", "budget". -/
def ruleRevenue (t : List Char) : Bool :=
  containsChars "revenue".toList t &&
    (containsChars "vs".toList t || containsChars "versus".toList t ||
     containsChars "budget".toList t)

/-- Rule 3: contains "gross margin", "gm%" or "gm %". -/
def ruleGm (t : List Char) : Bool :=
  containsChars "gross margin".toList t || containsChars "gm%".toList t ||
    containsChars "gm %".toList t

/-- Rule 4: contains "opex" or "operating expenses". -/
def ruleOpex (t : List Char) : Bool :=
  containsChars "opex".toList t || containsChars "operating expenses".toList t

/-- Rule 5: contains "ebitda". -/
def ruleEbitda (t : List Char) : Bool := containsChars "ebitda".toList t

/-- `classify_intent(text)`: the keyword cascade over `text.lower().strip()`,
first match winning. -/
def classify_intent (text : String) : String :=
  let t := normChars text
  if ruleCash t then "cash_runway"
  else if ruleRevenue t then "revenue_vs_budget"
  else if ruleGm t then "gross_margin_trend"
  else if ruleOpex t then "opex_breakdown"
  else if ruleEbitda t then "ebitda_trend"
  else "help"

/-- Transcribed from the spec, §4.3: the six precedence rules on the trimmed
lowercased input, first match winning, else help.  To compare with
`classify_intent`, which is transcribed from the code. -/
def classifySpecRules (text : String) : String :=
  let t := normChars text
  if containsChars "cash runway".toList t || hasWordRunway t then "cash_runway"
  else if containsChars "revenue".toList t &&
      (containsChars "vs".toList t || containsChars "versus".toList t ||
       containsChars "budget".toList t) then "revenue_vs_budget"
  else if containsChars "gross margin".toList t || containsChars "gm%".toList t ||
      containsChars "gm %".toList t then "gross_margin_trend"
  else if containsChars "opex".toList t || containsChars "operating expenses".toList t then
    "opex_breakdown"
  else if containsChars "ebitda".toList t then "ebitda_trend"
  else "help"

/-! ## Response orchestrator -/

def endsWithChars (suffix l : List Char) : Bool :=
  startsWithChars suffix.reverse l.reverse

/-- The shared month-resolution block of `respond` (revenue and opex branches):
an extracted month is used as-is; a partial "XXXX-MM" marker picks the latest
Actuals month with that month number (else the latest month); no extraction
falls back to the latest Actuals month.  `[-1]` on an empty list raises
(`Except.error`). -/
def resolveMonth (t : String) (fin : FinanceData) : Except String String :=
  match extract_month_from_text t with
  | some s =>
    if startsWithChars ['X','X','X','X'] s.toList then
      if s.length == 7 then
        let mon := String.mk (s.toList.drop 5)
        let months := sortedUnique (fin.actuals.map (·.month))
        let candidates := months.filter (fun x => endsWithChars ('-' :: mon.toList) x.toList)
        match candidates.getLast? with
        | some c => .ok c
        | none =>
          match months.getLast? with
          | some lastm => .ok lastm
          | none => .error "IndexError"
      else
        match latest_month ((fin.actuals.map (·.month)).dedup) with
        | some lm => .ok lm
        | none => .error "IndexError"
    else .ok s
  | none =>
    match latest_month ((fin.actuals.map (·.month)).dedup) with
    | some lm => .ok lm
    | none => .error "IndexError"

/-- A chart request handed to the matplotlib collaborator (the figure object,
modelled by the data and title it is built from). -/
inductive ChartReq
  | revBudgetBar (actual budget : Rat) (title : String)
  | gmTrendLine (df : List GmRow) (title : String)
  | opexBar (df : List OpexRow) (title : String)
  | cashTrendLine (pts : List CashPoint) (title : String)
  | ebitdaLine (rows : List EbitdaRow) (title : String)
deriving DecidableEq

/-- `plot_cash_trend(fin, months)`: the cash points of the latest `months`
distinct cash months. -/
def plot_cash_trend (fin : FinanceData) (months : Nat) (title : String) : ChartReq :=
  let lastMs := sliceLast months (sortedUnique (fin.cash.map (·.month)))
  .cashTrendLine (fin.cash.filter (fun c => lastMs.contains c.month)) title

/-- `f"$\x7bq:,.0f\x7d"` where the value may be NaN. -/
def fmtMoneyOpt : Option Rat → String
  | none => "nan"
  | some q => fmtThousands0 q

/-- `s.split(":", 1)[1]`: everything after the first colon. -/
def afterColon (s : String) : String :=
  String.mk ((s.toList.dropWhile (fun c => c != ':')).drop 1)

def revMsg (r : RevenueVsBudget) : String :=
  "Revenue vs Budget for " ++ r.month ++ ":\n" ++
  "• Actual: $" ++ fmtThousands0 r.actual_usd ++ "\n" ++
  "• Budget: $" ++ fmtThousands0 r.budget_usd ++ "\n" ++
  "• Variance: $" ++ fmtThousands0 r.variance_usd ++ " (" ++ fmtPct1 r.variance_pct ++ "%)"

def gmMsg (n : Nat) (df : List GmRow) : String :=
  String.intercalate "\n" (("Gross Margin % (last " ++ toString n ++ " months):") ::
    df.map (fun row => "• " ++ row.month ++ ": " ++ fmtPct1 row.gm_pct ++ "%"))

def opexMsg (m : String) (df : List OpexRow) : String :=
  String.intercalate "\n" (("Opex breakdown — " ++ m ++ ":") ::
    df.map (fun r => "• " ++ afterColon r.account_category ++ ": $" ++ fmtThousands0 r.usd))

def cashMsg (cr : CashRunway) : String :=
  let disp := match cr.runway_months with
    | .inf => "∞"
    | .nan => "nan months"
    | .val v => fmtFixed1 v ++ " months"
  "Cash runway as of " ++ cr.as_of ++ ":\n" ++
  "• Cash: $" ++ fmtMoneyOpt cr.cash_usd ++ "\n" ++
  "• Avg net burn (last 3 mo): $" ++ fmtThousands0 cr.avg_net_burn_usd ++ "\n" ++
  "• Runway: " ++ disp ++ "\n" ++ cr.note

def ebitdaMsg (rows : List EbitdaRow) : String :=
  String.intercalate "\n" ("EBITDA (last 6 months):" ::
    rows.map (fun r => "• " ++ r.month ++ ": $" ++ fmtThousands0 r.EBITDA))

def helpText : String :=
  "I can answer questions like:\n" ++
  "• What was June 2025 revenue vs budget in USD?\n" ++
  "• Show Gross Margin % trend for the last 3 months.\n" ++
  "• Break down Opex by category for June 2025.\n" ++
  "• What is our cash runway right now?\n\n" ++
  "Try including a month (e.g., \x27June 2025\x27) or a relative window (e.g., \x27last 3 months\x27)."

/-- Python `parse_last_n_months(t) or 3` (0 is falsy). -/
def windowOr3 : Option Nat → Nat
  | none => 3
  | some n => if n = 0 then 3 else n

/-- `respond(text, fin)`: classify, resolve the time reference, compute the
metric, format the answer and the chart request.  Exceptions escaping any
branch become `Except.error`. -/
def respond (text : String) (fin : FinanceData) :
    Except String (String × Option ChartReq) :=
  let intent := classify_intent text
  let t := String.mk (trimChars text.toList)
  if intent = "revenue_vs_budget" then
    match resolveMonth t fin with
    | .error e => .error e
    | .ok m =>
      let rvb := revenue_vs_budget_usd fin (.str m)
      .ok (revMsg rvb,
           some (.revBudgetBar rvb.actual_usd rvb.budget_usd
                  ("Revenue vs Budget — " ++ rvb.month)))
  else if intent = "gross_margin_trend" then
    let n := windowOr3 (parse_last_n_months t)
    let months := sliceLast n (sortedUnique (fin.actuals.map (·.month)))
    match gross_margin_pct_trend fin months with
    | .error e => .error e
    | .ok df =>
      .ok (gmMsg n df,
           some (.gmTrendLine df ("Gross Margin % — last " ++ toString n ++ " months")))
  else if intent = "opex_breakdown" then
    match resolveMonth t fin with
    | .error e => .error e
    | .ok m =>
      let df := opex_breakdown_usd fin (.str m)
      if df.isEmpty then .ok ("No Opex data for " ++ m ++ ".", none)
      else .ok (opexMsg m df, some (.opexBar df ("Opex Breakdown — " ++ m)))
  else if intent = "cash_runway" then
    match cash_runway_now fin with
    | .error e => .error e
    | .ok cr => .ok (cashMsg cr, some (plot_cash_trend fin 6 "Cash Trend — last 6 months"))
  else if intent = "ebitda_trend" then
    match ebitda_by_month fin with
    | .error e => .error e
    | .ok rows =>
      let last6 := rows.drop (rows.length - 6)
      .ok (ebitdaMsg last6, some (.ebitdaLine last6 "EBITDA — last 6 months"))
  else .ok (helpText, none)

/-! ## Helper lemmas -/

theorem usdSum_nil : usdSum [] = 0 := rfl

theorem usdSum_cons (r : UsdRow) (l : List UsdRow) :
    usdSum (r :: l) = r.usd.getD 0 + usdSum l := by
  simp [usdSum]

theorem usdSum_append (a b : List UsdRow) : usdSum (a ++ b) = usdSum a + usdSum b := by
  simp [usdSum]

theorem sortStr_eq_nil_iff (l : List String) : sortStr l = [] ↔ l = [] := by
  constructor
  · intro h
    have hlen := (List.perm_insertionSort strLe l).length_eq
    rw [show List.insertionSort strLe l = sortStr l from rfl, h] at hlen
    exact List.eq_nil_of_length_eq_zero hlen.symm
  · intro h; subst h; rfl

theorem latest_month_eq_none_iff (l : List String) : latest_month l = none ↔ l = [] := by
  unfold latest_month
  rw [List.getLast?_eq_none_iff]
  exact sortStr_eq_nil_iff l

theorem latest_month_mem {l : List String} {m : String} (h : latest_month l = some m) :
    m ∈ l := by
  unfold latest_month at h
  have hm : m ∈ sortStr l := List.mem_of_getLast?_eq_some h
  exact (List.mem_insertionSort strLe).mp hm

theorem mem_sortedUnique {l : List String} {m : String} (h : m ∈ sortedUnique l) : m ∈ l := by
  unfold sortedUnique sortStr at h
  exact List.mem_dedup.mp ((List.mem_insertionSort strLe).mp h)

/-! ## C6 -/

/-- C6: `classify_intent` evaluates the six keyword rules in the fixed order
cash_runway, revenue_vs_budget, gross_margin_trend, opex_breakdown,
ebitda_trend, help on the trimmed lowercased text, first match winning: it
agrees with the rule list transcribed from the spec; any text satisfying the
cash-runway rule (also when the revenue rule matches) classifies as
cash_runway; a text matching none of the keyword rules classifies as help. -/
theorem classify_intent_precedence (text : String) :
    classify_intent text = classifySpecRules text ∧
    (ruleCash (normChars text) = true → classify_intent text = "cash_runway") ∧
    (ruleCash (normChars text) = false → ruleRevenue (normChars text) = false →
     ruleGm (normChars text) = false → ruleOpex (normChars text) = false →
     ruleEbitda (normChars text) = false → classify_intent text = "help") := by
  refine ⟨?_, ?_, ?_⟩
  · simp only [classify_intent, classifySpecRules, ruleCash, ruleRevenue, ruleGm, ruleOpex,
      ruleEbitda]
  · intro h
    simp only [classify_intent, h, if_true]
  · intro h1 h2 h3 h4 h5
    simp only [classify_intent, h1, h2, h3, h4, h5, Bool.false_eq_true, if_false]

/-- C6 witness: the cash-runway rule wins over a simultaneously matching
revenue rule, and an unmatched text falls through to help. -/
theorem classify_intent_precedence_witness :
    classify_intent "show revenue vs budget runway" = "cash_runway" ∧
    classify_intent "hello there" = "help" :=
  ⟨(classify_intent_precedence "show revenue vs budget runway").2.1 (by decide),
   (classify_intent_precedence "hello there").2.2 (by decide) (by decide) (by decide)
     (by decide) (by decide)⟩

/-! ## C7 -/

/-- C7: `revenue_vs_budget_usd` returns `variance_usd` equal to the
USD-normalized Revenue actual sum minus the USD-normalized budget sum for the
month, and `variance_pct` is the ratio when `budget_usd` is nonzero and the
NaN sentinel (without raising) when `budget_usd` is zero. -/
theorem revenue_vs_budget_variance (fin : FinanceData) (month : MonthArg) :
    (revenue_vs_budget_usd fin month).actual_usd =
      usdSum (to_usd (fin.actuals.filter (fun r =>
        r.month == month_str month && r.account_category == "Revenue")) fin.fx) ∧
    (revenue_vs_budget_usd fin month).budget_usd =
      usdSum (to_usd (fin.budget.filter (fun r =>
        r.month == month_str month && r.account_category == "Revenue")) fin.fx) ∧
    (revenue_vs_budget_usd fin month).variance_usd =
      (revenue_vs_budget_usd fin month).actual_usd -
        (revenue_vs_budget_usd fin month).budget_usd ∧
    ((revenue_vs_budget_usd fin month).budget_usd ≠ 0 →
      (revenue_vs_budget_usd fin month).variance_pct =
        some ((revenue_vs_budget_usd fin month).variance_usd /
              (revenue_vs_budget_usd fin month).budget_usd)) ∧
    ((revenue_vs_budget_usd fin month).budget_usd = 0 →
      (revenue_vs_budget_usd fin month).variance_pct = none) := by
  refine ⟨rfl, rfl, rfl, ?_, ?_⟩
  · intro h
    simp only [revenue_vs_budget_usd] at h ⊢
    rw [if_neg h]
  · intro h
    simp only [revenue_vs_budget_usd] at h ⊢
    rw [if_pos h]

def finW7 : FinanceData :=
  { actuals := [ { month := "2025-06", account_category := "Revenue", amount := 100,
                   currency := "USD" } ],
    budget := [ { month := "2025-06", account_category := "Revenue", amount := 80,
                  currency := "USD" } ],
    fx := [ { month := "2025-06", currency := "USD", rate_to_usd := 1 } ],
    cash := [] }

/-- C7 witness: on a concrete snapshot with nonzero budget the ratio is taken,
and with an unknown month (empty filters, zero budget) the NaN sentinel. -/
theorem revenue_vs_budget_variance_witness :
    (revenue_vs_budget_usd finW7 (.str "2025-06")).variance_pct =
      some ((revenue_vs_budget_usd finW7 (.str "2025-06")).variance_usd /
            (revenue_vs_budget_usd finW7 (.str "2025-06")).budget_usd) ∧
    (revenue_vs_budget_usd finW7 (.str "1999-01")).variance_pct = none :=
  ⟨(revenue_vs_budget_variance finW7 (.str "2025-06")).2.2.2.1
      (by show (80 * 1 + 0 : Rat) ≠ 0; norm_num),
   (revenue_vs_budget_variance finW7 (.str "1999-01")).2.2.2.2 rfl⟩

/-! ## C3 -/

/-- C3: a row whose (month, currency) pair has no FX entry comes back from
`to_usd` with an undefined (NaN) usd and no exception, and downstream sums
treat that row as contributing zero — in particular the `actual_usd` sum of
`revenue_vs_budget_usd` is unchanged by adding such a row. -/
theorem to_usd_missing_rate (fin : FinanceData) (r : LedgerRow) (df : List LedgerRow)
    (month : MonthArg)
    (hmiss : ∀ f ∈ fin.fx, ¬(f.month = r.month ∧ f.currency = r.currency)) :
    to_usd (r :: df) fin.fx =
      { month := r.month, account_category := r.account_category, amount := r.amount,
        currency := r.currency, usd := none } :: to_usd df fin.fx ∧
    usdSum (to_usd (r :: df) fin.fx) = usdSum (to_usd df fin.fx) ∧
    (r.month = month_str month → r.account_category = "Revenue" →
      (revenue_vs_budget_usd { fin with actuals := r :: fin.actuals } month).actual_usd =
        (revenue_vs_budget_usd fin month).actual_usd) := by
  have hnil : fxMatches fin.fx r = [] := by
    apply List.filter_eq_nil_iff.mpr
    intro f hf
    simp only [Bool.and_eq_true, beq_iff_eq]
    exact fun hh => hmiss f hf hh
  have hconsG : ∀ df' : List LedgerRow, to_usd (r :: df') fin.fx =
      { month := r.month, account_category := r.account_category, amount := r.amount,
        currency := r.currency, usd := none } :: to_usd df' fin.fx := by
    intro df'
    simp [to_usd, rowExpand, hnil]
  have hsumG : ∀ df' : List LedgerRow,
      usdSum (to_usd (r :: df') fin.fx) = usdSum (to_usd df' fin.fx) := by
    intro df'
    rw [hconsG, usdSum_cons]
    simp
  refine ⟨hconsG df, hsumG df, ?_⟩
  intro hm hcat
  have hp : (r.month == month_str month && r.account_category == "Revenue") = true := by
    simp [hm, hcat]
  simp only [revenue_vs_budget_usd, List.filter_cons, hp, if_true]
  rw [hsumG]

def finW3 : FinanceData :=
  { actuals := [], budget := [],
    fx := [ { month := "2025-01", currency := "USD", rate_to_usd := 1 } ], cash := [] }

def rowW3 : LedgerRow :=
  { month := "2025-01", account_category := "Revenue", amount := 100, currency := "EUR" }

/-- C3 witness: a EUR row with no matching FX rate surfaces with usd = NaN and
leaves the sums untouched. -/
theorem to_usd_missing_rate_witness :
    to_usd [rowW3] finW3.fx =
      [{ month := rowW3.month, account_category := rowW3.account_category,
         amount := rowW3.amount, currency := rowW3.currency, usd := none }] ∧
    usdSum (to_usd [rowW3] finW3.fx) = usdSum (to_usd [] finW3.fx) ∧
    (revenue_vs_budget_usd { finW3 with actuals := rowW3 :: finW3.actuals }
        (.str "2025-01")).actual_usd =
      (revenue_vs_budget_usd finW3 (.str "2025-01")).actual_usd :=
  ⟨(to_usd_missing_rate finW3 rowW3 [] (.str "2025-01") (by decide)).1,
   (to_usd_missing_rate finW3 rowW3 [] (.str "2025-01") (by decide)).2.1,
   (to_usd_missing_rate finW3 rowW3 [] (.str "2025-01") (by decide)).2.2 (by decide) rfl⟩

/-! ## C5 -/

theorem fxMatches_length_le_one (fx : List FxRate) (r : LedgerRow)
    (huniq : fx.Pairwise (fun f g => f.month ≠ g.month ∨ f.currency ≠ g.currency)) :
    (fxMatches fx r).length ≤ 1 := by
  induction fx with
  | nil => simp [fxMatches]
  | cons f fs ih =>
    rw [List.pairwise_cons] at huniq
    obtain ⟨hf, hfs⟩ := huniq
    by_cases h : (f.month == r.month && f.currency == r.currency) = true
    · have hnil : fxMatches fs r = [] := by
        apply List.filter_eq_nil_iff.mpr
        intro g hg
        simp only [Bool.and_eq_true, beq_iff_eq] at h ⊢
        rintro ⟨h1, h2⟩
        rcases hf g hg with hne | hne
        · exact hne (h.1.trans h1.symm)
        · exact hne (h.2.trans h2.symm)
      simp only [fxMatches] at hnil ⊢
      simp [List.filter_cons, h, hnil]
    · have h' : (f.month == r.month && f.currency == r.currency) = false := by
        simpa using h
      simp only [fxMatches] at ih ⊢
      simp only [List.filter_cons, h', Bool.false_eq_true, if_false]
      exact ih hfs

theorem rowExpand_length_eq_one (fx : List FxRate) (r : LedgerRow)
    (huniq : fx.Pairwise (fun f g => f.month ≠ g.month ∨ f.currency ≠ g.currency)) :
    (rowExpand fx r).length = 1 := by
  have hle := fxMatches_length_le_one fx r huniq
  unfold rowExpand
  cases hm : fxMatches fx r with
  | nil => simp
  | cons m ms =>
    rw [hm] at hle
    simp only [List.length_cons] at hle
    have hms : ms = [] := List.eq_nil_of_length_eq_zero (by omega)
    subst hms
    simp

theorem to_usd_length (df : List LedgerRow) (fx : List FxRate)
    (huniq : fx.Pairwise (fun f g => f.month ≠ g.month ∨ f.currency ≠ g.currency)) :
    (to_usd df fx).length = df.length := by
  induction df with
  | nil => rfl
  | cons r rs ih =>
    show (rowExpand fx r ++ to_usd rs fx).length = rs.length + 1
    rw [List.length_append, rowExpand_length_eq_one fx r huniq, ih]
    omega

theorem to_usd_matched_mem (df : List LedgerRow) (fx : List FxRate) (r : LedgerRow)
    (hr : r ∈ df) (f : FxRate) (hf : f ∈ fx) (hm : f.month = r.month)
    (hc : f.currency = r.currency) :
    ({ month := r.month, account_category := r.account_category, amount := r.amount,
       currency := r.currency, usd := some (r.amount * f.rate_to_usd) } : UsdRow) ∈
      to_usd df fx := by
  induction hr with
  | head as =>
    apply List.mem_append_left
    have hfm : f ∈ fxMatches fx r := List.mem_filter.mpr ⟨hf, by simp [hm, hc]⟩
    cases hmm : fxMatches fx r with
    | nil => rw [hmm] at hfm; cases hfm
    | cons m ms =>
      rw [hmm] at hfm
      simp only [rowExpand, hmm]
      exact List.mem_map.mpr ⟨f, hfm, rfl⟩
  | tail b hmem ih => exact List.mem_append_right _ ih

/-- C5: with at most one FX rate per (month, currency) pair, `to_usd` returns
exactly one output row per input row (so the empty input gives the empty,
still-typed output) and never fails; a matched row carries
`usd = amount * rate_to_usd`. -/
theorem to_usd_row_preservation (df : List LedgerRow) (fx : List FxRate)
    (huniq : fx.Pairwise (fun f g => f.month ≠ g.month ∨ f.currency ≠ g.currency)) :
    (to_usd df fx).length = df.length ∧
    (∀ r ∈ df, ∀ f ∈ fx, f.month = r.month → f.currency = r.currency →
      ({ month := r.month, account_category := r.account_category, amount := r.amount,
         currency := r.currency, usd := some (r.amount * f.rate_to_usd) } : UsdRow) ∈
        to_usd df fx) ∧
    to_usd [] fx = [] :=
  ⟨to_usd_length df fx huniq,
   fun r hr f hf hm hc => to_usd_matched_mem df fx r hr f hf hm hc, rfl⟩

def dfW5 : List LedgerRow :=
  [ { month := "2025-01", account_category := "Revenue", amount := 100, currency := "USD" },
    { month := "2025-02", account_category := "COGS", amount := 50, currency := "EUR" } ]

def fxW5 : List FxRate := [ { month := "2025-01", currency := "USD", rate_to_usd := 2 } ]

/-- C5 witness: a two-row frame against a single-rate FX table keeps both rows;
the matched row carries the product. -/
theorem to_usd_row_preservation_witness :
    (to_usd dfW5 fxW5).length = dfW5.length ∧
    ({ month := "2025-01", account_category := "Revenue", amount := 100, currency := "USD",
       usd := some (100 * 2) } : UsdRow) ∈ to_usd dfW5 fxW5 :=
  ⟨(to_usd_row_preservation dfW5 fxW5 (by decide)).1,
   (to_usd_row_preservation dfW5 fxW5 (by decide)).2.1
     { month := "2025-01", account_category := "Revenue", amount := 100, currency := "USD" }
     (by decide) { month := "2025-01", currency := "USD", rate_to_usd := 2 }
     (by decide) rfl rfl⟩

/-! ## C10 -/

theorem digitChar_isDigit {k : Nat} (h : k < 10) : (digitChar k).isDigit = true := by
  interval_cases k <;> decide

theorem isDigit_sub48_le {a : Char} (h : a.isDigit = true) : a.toNat - 48 ≤ 9 := by
  simp only [Char.isDigit, Bool.and_eq_true, decide_eq_true_eq] at h
  obtain ⟨-, h2⟩ := h
  have : a.toNat ≤ 57 := h2
  omega

theorem matchYear4_bound {l : List Char} {y : Nat} {rest : List Char}
    (h : matchYear4 l = some (y, rest)) : y ≤ 9999 := by
  match l with
  | [] => simp [matchYear4] at h
  | [a] => simp [matchYear4] at h
  | [a, b] => simp [matchYear4] at h
  | [a, b, c] => simp [matchYear4] at h
  | a :: b :: c :: d :: t =>
    simp only [matchYear4] at h
    split at h
    · rename_i hcond
      simp only [Option.some.injEq, Prod.mk.injEq] at h
      obtain ⟨hy, -⟩ := h
      simp only [Bool.and_eq_true] at hcond
      obtain ⟨⟨⟨ha, hb⟩, hc⟩, hd⟩ := hcond
      have h1 := isDigit_sub48_le ha
      have h2 := isDigit_sub48_le hb
      have h3 := isDigit_sub48_le hc
      have h4 := isDigit_sub48_le hd
      omega
    · cases h

theorem matchMonthWord_lt (words : List (List Char)) :
    ∀ (i : Nat) (l : List Char) (mi : Nat) (rest : List Char),
      matchMonthWord words i l = some (mi, rest) → mi < i + words.length := by
  induction words with
  | nil => intro i l mi rest h; simp [matchMonthWord] at h
  | cons w ws ih =>
    intro i l mi rest h
    simp only [matchMonthWord] at h
    split at h
    · simp only [Option.some.injEq, Prod.mk.injEq] at h
      obtain ⟨h1, -⟩ := h
      simp only [List.length_cons]
      omega
    · have := ih (i + 1) l mi rest h
      simp only [List.length_cons]
      omega

theorem dateParse_bounds {s : String} {y m : Nat} (h : dateParse s = some (y, m)) :
    y ≤ 9999 ∧ m ≤ 99 := by
  unfold dateParse at h
  dsimp only at h
  split at h
  · rename_i m' rest hfull
    split at h
    · rename_i rest2 hws
      split at h
      · rename_i y' hy4
        simp only [Option.some.injEq, Prod.mk.injEq] at h
        obtain ⟨rfl, rfl⟩ := h
        have hlt := matchMonthWord_lt monthFull 1 _ _ _ hfull
        have hle := matchYear4_bound hy4
        simp only [monthFull, List.length_cons, List.length_nil] at hlt
        omega
      · cases h
    · cases h
  · split at h
    · rename_i m' rest habbr
      split at h
      · rename_i rest2 hws
        split at h
        · rename_i y' hy4
          simp only [Option.some.injEq, Prod.mk.injEq] at h
          obtain ⟨rfl, rfl⟩ := h
          have hlt := matchMonthWord_lt monthAbbr 1 _ _ _ habbr
          have hle := matchYear4_bound hy4
          simp only [monthAbbr, List.length_cons, List.length_nil] at hlt
          omega
        · cases h
      · cases h
    · split at h
      · rename_i y' d hy4
        split at h
        · rename_i hcond
          simp only [Option.some.injEq, Prod.mk.injEq] at h
          obtain ⟨rfl, rfl⟩ := h
          simp only [Bool.and_eq_true, decide_eq_true_eq] at hcond
          have hle := matchYear4_bound hy4
          have hd := isDigit_sub48_le hcond.1
          omega
        · cases h
      · cases h

theorem fmtYM_canonical {y m : Nat} (hy : y ≤ 9999) (hm : m ≤ 99) :
    isCanonicalMonth (fmtYM y m) = true := by
  have h1 := digitChar_isDigit (Nat.mod_lt (y / 1000) (by norm_num))
  have h2 := digitChar_isDigit (Nat.mod_lt (y / 100) (by norm_num))
  have h3 := digitChar_isDigit (Nat.mod_lt (y / 10) (by norm_num))
  have h4 := digitChar_isDigit (Nat.mod_lt y (by norm_num))
  have h5 := digitChar_isDigit (Nat.mod_lt (m / 10) (by norm_num))
  have h6 := digitChar_isDigit (Nat.mod_lt m (by norm_num))
  simp only [fmtYM, pad4L, pad2L, if_pos hy, if_pos hm]
  simp [isCanonicalMonth, String.toList, h1, h2, h3, h4, h5, h6]

def monthArgValid : MonthArg → Prop
  | .str _ => True
  | .ts y m => y ≤ 9999 ∧ m ≤ 99

theorem month_str_idem (month : MonthArg) (h : monthArgValid month) :
    month_str (.str (month_str month)) = month_str month := by
  cases month with
  | ts y m =>
    obtain ⟨hy, hm⟩ := h
    simp [month_str, fmtYM_canonical hy hm]
  | str s =>
    by_cases hc : isCanonicalMonth s = true
    · simp [month_str, hc]
    · rw [Bool.not_eq_true] at hc
      rcases hd : dateParse s with - | ⟨y, m⟩
      · simp [month_str, hc, hd]
      · obtain ⟨hy, hm⟩ := dateParse_bounds hd
        simp [month_str, hc, hd, fmtYM_canonical hy hm]

/-- C10: `revenue_vs_budget_usd` and `opex_breakdown_usd` canonicalize the
month through `month_str` first, so any argument gives the same result as its
canonical `"YYYY-MM"` form; and a string that is neither canonical nor
date-parseable is used verbatim as the filter key, yielding zero sums with a
NaN `variance_pct` (no exception) and an empty breakdown when the data's
months are all canonical. -/
theorem month_canonicalization (fin : FinanceData) (month : MonthArg)
    (hvalid : monthArgValid month) :
    revenue_vs_budget_usd fin month = revenue_vs_budget_usd fin (.str (month_str month)) ∧
    opex_breakdown_usd fin month = opex_breakdown_usd fin (.str (month_str month)) ∧
    (∀ s : String, isCanonicalMonth s = false → dateParse s = none →
      (∀ r ∈ fin.actuals, isCanonicalMonth r.month = true) →
      (∀ r ∈ fin.budget, isCanonicalMonth r.month = true) →
      (revenue_vs_budget_usd fin (.str s)).actual_usd = 0 ∧
      (revenue_vs_budget_usd fin (.str s)).budget_usd = 0 ∧
      (revenue_vs_budget_usd fin (.str s)).variance_pct = none ∧
      opex_breakdown_usd fin (.str s) = []) := by
  have hidem := month_str_idem month hvalid
  refine ⟨?_, ?_, ?_⟩
  · simp only [revenue_vs_budget_usd, hidem]
  · simp only [opex_breakdown_usd, hidem]
  · intro s hnc hnp hA hB
    have hms : month_str (.str s) = s := by
      simp [month_str, hnc, hnp]
    have hkey : ∀ r : LedgerRow, r ∈ fin.actuals ∨ r ∈ fin.budget → (r.month == s) = false := by
      rintro r hr
      rw [beq_eq_false_iff_ne]
      intro hmeq
      have hcan : isCanonicalMonth r.month = true := by
        rcases hr with hr | hr
        · exact hA r hr
        · exact hB r hr
      rw [hmeq, hnc] at hcan
      cases hcan
    have hfilA : fin.actuals.filter
        (fun r => r.month == s && r.account_category == "Revenue") = [] := by
      apply List.filter_eq_nil_iff.mpr
      intro r hr
      simp [hkey r (Or.inl hr)]
    have hfilB : fin.budget.filter
        (fun r => r.month == s && r.account_category == "Revenue") = [] := by
      apply List.filter_eq_nil_iff.mpr
      intro r hr
      simp [hkey r (Or.inr hr)]
    have hfilOp : fin.actuals.filter
        (fun r => r.month == s && isOpexCat r.account_category) = [] := by
      apply List.filter_eq_nil_iff.mpr
      intro r hr
      simp [hkey r (Or.inl hr)]
    refine ⟨?_, ?_, ?_, ?_⟩
    · simp [revenue_vs_budget_usd, hms, hfilA, to_usd, usdSum]
    · simp [revenue_vs_budget_usd, hms, hfilB, to_usd, usdSum]
    · simp [revenue_vs_budget_usd, hms, hfilA, hfilB, to_usd, usdSum]
    · simp [opex_breakdown_usd, hms, hfilOp]

def finW10 : FinanceData :=
  { actuals := [ { month := "2025-06", account_category := "Revenue", amount := 100,
                   currency := "USD" } ],
    budget := [], fx := [], cash := [] }

/-- C10 witness: "June 2025" behaves like its canonical form, and the
unparseable key "notamonth" yields zero sums and an empty breakdown. -/
theorem month_canonicalization_witness :
    revenue_vs_budget_usd finW10 (.str "June 2025") =
      revenue_vs_budget_usd finW10 (.str (month_str (.str "June 2025"))) ∧
    (revenue_vs_budget_usd finW10 (.str "notamonth")).actual_usd = 0 ∧
    opex_breakdown_usd finW10 (.str "notamonth") = [] :=
  ⟨(month_canonicalization finW10 (.str "June 2025") trivial).1,
   ((month_canonicalization finW10 (.str "notamonth") trivial).2.2 "notamonth" (by decide)
      (by decide) (by decide) (by decide)).1,
   ((month_canonicalization finW10 (.str "notamonth") trivial).2.2 "notamonth" (by decide)
      (by decide) (by decide) (by decide)).2.2.2⟩

/-! ## C9 -/

/-- C9 (amended): every gm_pct in the trend is the NaN sentinel or equals
(Revenue − COGS) / Revenue for its month, and it lies in the closed interval
[0, 1] provided each requested month's pivoted COGS sum lies between 0 and
that month's Revenue sum. -/
theorem gm_pct_in_unit_interval (fin : FinanceData) (months : List String)
    (rows : List GmRow) (hok : gross_margin_pct_trend fin months = .ok rows)
    (hcc : ∀ m ∈ months,
      0 ≤ pivotCell (to_usd (fin.actuals.filter (fun r => months.contains r.month)) fin.fx)
            m "COGS" ∧
      pivotCell (to_usd (fin.actuals.filter (fun r => months.contains r.month)) fin.fx)
            m "COGS" ≤
        pivotCell (to_usd (fin.actuals.filter (fun r => months.contains r.month)) fin.fx)
            m "Revenue") :
    ∀ row ∈ rows, ∀ g, row.gm_pct = some g → 0 ≤ g ∧ g ≤ 1 := by
  intro row hrow g hg
  unfold gross_margin_pct_trend at hok
  dsimp only at hok
  split at hok
  · rw [Except.ok.injEq] at hok
    subst hok
    rw [List.mem_map] at hrow
    obtain ⟨m, hm_mem, rfl⟩ := hrow
    have hm_in : m ∈ months := by
      have h1 := mem_sortedUnique hm_mem
      rw [List.mem_map] at h1
      obtain ⟨r, hrf, hrm⟩ := h1
      have hp := (List.mem_filter.mp hrf).2
      rw [← hrm]
      exact List.elem_iff.mp hp
    obtain ⟨hc0, hcr⟩ := hcc m hm_in
    dsimp only at hg
    split at hg
    · cases hg
    · rename_i hrev0
      rw [Option.some.injEq] at hg
      subst hg
      have hrevpos : 0 < pivotCell
          (to_usd (fin.actuals.filter (fun r => months.contains r.month)) fin.fx)
          m "Revenue" := lt_of_le_of_ne (le_trans hc0 hcr) (Ne.symm hrev0)
      constructor
      · exact div_nonneg (by linarith) (le_of_lt hrevpos)
      · rw [div_le_one hrevpos]
        linarith
  · exact absurd hok (by simp)

def finC9 : FinanceData :=
  { actuals := [ { month := "2025-01", account_category := "Revenue", amount := 100,
                   currency := "USD" },
                 { month := "2025-01", account_category := "COGS", amount := 200,
                   currency := "USD" } ],
    budget := [], fx := [ { month := "2025-01", currency := "USD", rate_to_usd := 1 } ],
    cash := [] }

/-- C9 counterexample: with COGS 200 against Revenue 100 the month's gm_pct is
−1, which is defined yet outside [0, 1]. -/
theorem gm_pct_outside_unit_interval :
    gross_margin_pct_trend finC9 ["2025-01"] =
      .ok [{ month := "2025-01", gm_pct := some (-1) }] ∧ ¬(0 ≤ (-1 : Rat)) := by
  constructor
  · norm_num [gross_margin_pct_trend, finC9, sortedUnique, sortStr, pivotCell, usdSum, to_usd,
      rowExpand, fxMatches, hasCategory, List.insertionSort, List.orderedInsert, List.filter,
      List.dedup, show (("COGS" == "Revenue") : Bool) = false from by decide,
      show (("Revenue" == "COGS") : Bool) = false from by decide]
  · norm_num

def finW9 : FinanceData :=
  { actuals := [ { month := "2025-01", account_category := "Revenue", amount := 100,
                   currency := "USD" },
                 { month := "2025-01", account_category := "COGS", amount := 40,
                   currency := "USD" } ],
    budget := [], fx := [ { month := "2025-01", currency := "USD", rate_to_usd := 1 } ],
    cash := [] }

def gmIteW9 : Option Rat :=
  if (100 * 1 + 0 : Rat) = 0 then none
  else some ((100 * 1 + 0 - (40 * 1 + 0)) / (100 * 1 + 0))

/-- C9 witness: with COGS 40 against Revenue 100 the defined margin lies in
[0, 1]. -/
theorem gm_pct_in_unit_interval_witness :
    0 ≤ ((100 * 1 + 0 - (40 * 1 + 0)) / (100 * 1 + 0) : Rat) ∧
    ((100 * 1 + 0 - (40 * 1 + 0)) / (100 * 1 + 0) : Rat) ≤ 1 :=
  gm_pct_in_unit_interval finW9 ["2025-01"]
    [{ month := "2025-01", gm_pct := gmIteW9 }] rfl
    (by intro m hm
        rw [List.mem_singleton] at hm
        subst hm
        refine ⟨?_, ?_⟩
        · show (0 : Rat) ≤ 40 * 1 + 0
          norm_num
        · show (40 * 1 + 0 : Rat) ≤ 100 * 1 + 0
          norm_num)
    { month := "2025-01", gm_pct := gmIteW9 } (by simp) _
    (by simp only [gmIteW9]
        norm_num)

/-! ## C1 -/

def finC1 : FinanceData :=
  { actuals := [ { month := "2025-05", account_category := "Revenue", amount := 100,
                   currency := "USD" } ],
    budget := [], fx := [ { month := "2025-05", currency := "USD", rate_to_usd := 1 } ],
    cash := [] }

/-- C1 (code-bug evidence): requesting ["2025-04", "2025-05"] against Actuals
holding only 2025-05 yields a single row (the absent month is dropped from the
pivot index, not reported with NaN), and with all-empty tables the call fails
(AttributeError on `float.replace`) instead of returning one NaN row per
requested month — both contradict the spec and the repository's own test
`test_gross_margin_pct_trend_empty`. -/
theorem gm_trend_drops_missing_months :
    (∃ rows, gross_margin_pct_trend finC1 ["2025-04", "2025-05"] = .ok rows ∧
      rows.map GmRow.month = ["2025-05"] ∧ rows.length = 1) ∧
    (gross_margin_pct_trend { actuals := [], budget := [], fx := [], cash := [] }
        ["2025-04", "2025-05", "2025-06"]).isOk = false := by
  constructor
  · exact ⟨_, rfl, by decide, by decide⟩
  · decide

/-! ## C2 -/

/-- C2 (amended): the metric functions recover by returning sentinels except
when a required table lacks the data they index into: `cash_runway_now`
succeeds exactly when the Cash table is non-empty and Actuals contain at least
one Revenue row and one COGS row (otherwise `sorted([])[-1]` raises IndexError
or the pivot column selection raises KeyError); `ebitda_by_month` succeeds
exactly when Revenue and COGS rows exist; `gross_margin_pct_trend` succeeds
exactly when the filtered months contain a Revenue row. -/
theorem core_failure_characterization (fin : FinanceData) :
    ((cash_runway_now fin).isOk = true ↔
      (fin.cash ≠ [] ∧ hasCategory fin.actuals "Revenue" = true ∧
        hasCategory fin.actuals "COGS" = true)) ∧
    ((ebitda_by_month fin).isOk = true ↔
      (hasCategory fin.actuals "Revenue" = true ∧ hasCategory fin.actuals "COGS" = true)) ∧
    (∀ months, (gross_margin_pct_trend fin months).isOk = true ↔
      hasCategory (fin.actuals.filter (fun r => months.contains r.month)) "Revenue" = true) := by
  refine ⟨?_, ?_, ?_⟩
  · rcases hl : latest_month ((fin.cash.map (·.month)).dedup) with - | latest
    · have hnil : fin.cash = [] := by
        have h := (latest_month_eq_none_iff _).mp hl
        rwa [List.dedup_eq_nil, List.map_eq_nil_iff] at h
      simp only [cash_runway_now, hl]
      simp [Except.isOk, Except.toBool, hnil]
    · have hne : fin.cash ≠ [] := by
        intro hc
        rw [hc] at hl
        simp [latest_month, sortStr] at hl
      by_cases hcats :
          (hasCategory fin.actuals "Revenue" && hasCategory fin.actuals "COGS") = true
      · obtain ⟨rows, he⟩ : ∃ rows, ebitda_by_month fin = .ok rows := by
          unfold ebitda_by_month
          rw [if_pos hcats]
          exact ⟨_, rfl⟩
        rw [Bool.and_eq_true] at hcats
        simp only [cash_runway_now, hl, he]
        constructor
        · intro _
          exact ⟨hne, hcats.1, hcats.2⟩
        · intro _
          split
          · rfl
          · split <;> rfl
      · have he : ebitda_by_month fin = .error "KeyError" := by
          unfold ebitda_by_month
          rw [if_neg hcats]
        rw [Bool.and_eq_true] at hcats
        simp only [cash_runway_now, hl, he]
        simp only [Except.isOk, Except.toBool]
        constructor
        · intro h
          cases h
        · rintro ⟨-, h1, h2⟩
          exact absurd ⟨h1, h2⟩ hcats
  · unfold ebitda_by_month
    by_cases hcats :
        (hasCategory fin.actuals "Revenue" && hasCategory fin.actuals "COGS") = true
    · rw [if_pos hcats, Bool.and_eq_true] at *
      simp [Except.isOk, Except.toBool, hcats]
    · rw [if_neg hcats]
      rw [Bool.and_eq_true] at hcats
      simp only [Except.isOk, Except.toBool]
      constructor
      · intro h
        cases h
      · rintro ⟨h1, h2⟩
        exact absurd ⟨h1, h2⟩ hcats
  · intro months
    unfold gross_margin_pct_trend
    dsimp only
    by_cases hrev :
        hasCategory (fin.actuals.filter (fun r => months.contains r.month)) "Revenue" = true
    · rw [if_pos hrev]
      simp only [Except.isOk, Except.toBool]
      exact ⟨fun _ => hrev, fun _ => by simp⟩
    · rw [if_neg hrev]
      simp only [Except.isOk, Except.toBool]
      constructor
      · intro h
        cases h
      · intro h
        exact absurd h hrev

/-- C2 counterexample: on an empty Cash table `cash_runway_now` fails
(IndexError from `sorted([])[-1]` in `latest_month`) instead of returning a
sentinel value. -/
theorem cash_runway_raises_on_empty_cash :
    cash_runway_now { actuals := [], budget := [], fx := [], cash := [] } =
      .error "IndexError" := by decide

def finW2 : FinanceData :=
  { actuals := [ { month := "2025-01", account_category := "Revenue", amount := 100,
                   currency := "USD" },
                 { month := "2025-01", account_category := "COGS", amount := 50,
                   currency := "USD" } ],
    budget := [], fx := [], cash := [ { month := "2025-01", cash_usd := 10 } ] }

/-- C2 witness: with a non-empty Cash table and Revenue/COGS rows present the
runway computation returns a value. -/
theorem core_failure_characterization_witness :
    (cash_runway_now finW2).isOk = true :=
  (core_failure_characterization finW2).1.mpr ⟨by decide, by decide, by decide⟩

/-! ## C4 -/

theorem sliceLast_length_of_le {α : Type} {n : Nat} {l : List α} (h : n ≤ l.length)
    (hn : n ≠ 0) : (sliceLast n l).length = n := by
  simp [sliceLast, hn]
  omega

/-- C4 (amended): with a non-empty Cash table, at least three distinct months
in Actuals, and at least one Revenue row and one COGS row in Actuals (without
those rows the inner `ebitda_by_month` call raises KeyError), `cash_runway_now`
returns as_of = the chronologically latest Cash month, avg_net_burn_usd = the
mean over the 3 latest Actuals months of max(0, −EBITDA), and: runway = +inf
with the fixed profitable note when the average burn is 0, else
cash_usd / avg_net_burn_usd with a "~X.X months of runway" note. -/
theorem cash_runway_fields (fin : FinanceData)
    (hcash : fin.cash ≠ [])
    (hrev : hasCategory fin.actuals "Revenue" = true)
    (hcogs : hasCategory fin.actuals "COGS" = true)
    (h3 : 3 ≤ (sortedUnique (fin.actuals.map (·.month))).length) :
    ∃ cr, cash_runway_now fin = .ok cr ∧
      some cr.as_of = latest_month ((fin.cash.map (·.month)).dedup) ∧
      cr.avg_net_burn_usd =
        ((sliceLast 3 (sortedUnique (fin.actuals.map (·.month)))).map
          (fun m => max 0 (-(ebitdaAt (to_usd fin.actuals fin.fx) m)))).sum / 3 ∧
      (cr.avg_net_burn_usd = 0 → cr.runway_months = .inf ∧
        cr.note = "Profitable over the last 3 months (no net burn). Runway: N/A") ∧
      (cr.avg_net_burn_usd ≠ 0 → ∃ c, cr.cash_usd = some c ∧
        cr.runway_months = .val (c / cr.avg_net_burn_usd) ∧
        cr.note = "~" ++ fmtFixed1 (c / cr.avg_net_burn_usd) ++ " months of runway") := by
  obtain ⟨latest, hl⟩ : ∃ m, latest_month ((fin.cash.map (·.month)).dedup) = some m := by
    rcases h : latest_month ((fin.cash.map (·.month)).dedup) with - | m
    · exfalso
      have h2 := (latest_month_eq_none_iff _).mp h
      rw [List.dedup_eq_nil, List.map_eq_nil_iff] at h2
      exact hcash h2
    · exact ⟨m, h⟩
  have hmem : latest ∈ fin.cash.map (·.month) := List.mem_dedup.mp (latest_month_mem hl)
  obtain ⟨cp, hcp, hcpm⟩ := List.mem_map.mp hmem
  have hfilne : fin.cash.filter (fun c => c.month == latest) ≠ [] := by
    intro hemp
    have h2 := List.filter_eq_nil_iff.mp hemp cp hcp
    simp [hcpm] at h2
  obtain ⟨c0, hc0⟩ :
      ∃ c, ((fin.cash.filter (fun c => c.month == latest)).map (·.cash_usd)).head? = some c := by
    cases hx : fin.cash.filter (fun c => c.month == latest) with
    | nil => exact absurd hx hfilne
    | cons a t => exact ⟨a.cash_usd, by simp [hx]⟩
  have hcats : (hasCategory fin.actuals "Revenue" && hasCategory fin.actuals "COGS") = true := by
    simp [hrev, hcogs]
  obtain ⟨rows, he⟩ : ∃ rows, ebitda_by_month fin = .ok rows := by
    unfold ebitda_by_month
    rw [if_pos hcats]
    exact ⟨_, rfl⟩
  simp only [cash_runway_now, hl, he]
  set burns := (sliceLast 3 (sortedUnique (fin.actuals.map (·.month)))).map
      (fun m => max 0 (-(ebitdaAt (to_usd fin.actuals fin.fx) m))) with hburns
  have hlen : burns.length = 3 := by
    rw [hburns, List.length_map]
    exact sliceLast_length_of_le h3 (by norm_num)
  have hcast : ((burns.length : Nat) : Rat) = 3 := by
    rw [hlen]
    norm_num
  by_cases havg : burns.sum / ((burns.length : Nat) : Rat) = 0
  · rw [if_pos havg]
    refine ⟨_, rfl, rfl, ?_, ?_, ?_⟩
    · show burns.sum / ((burns.length : Nat) : Rat) = burns.sum / 3
      rw [hcast]
    · intro _
      exact ⟨rfl, rfl⟩
    · intro hne
      exact absurd havg hne
  · rw [if_neg havg]
    rw [hc0]
    refine ⟨_, rfl, rfl, ?_, ?_, ?_⟩
    · show burns.sum / ((burns.length : Nat) : Rat) = burns.sum / 3
      rw [hcast]
    · intro h0
      exact absurd h0 havg
    · intro _
      exact ⟨c0, rfl, rfl, rfl⟩

def finC4x : FinanceData :=
  { actuals := [ { month := "2025-01", account_category := "Opex:Mktg", amount := 10,
                   currency := "USD" },
                 { month := "2025-02", account_category := "Opex:Mktg", amount := 10,
                   currency := "USD" },
                 { month := "2025-03", account_category := "Opex:Mktg", amount := 10,
                   currency := "USD" } ],
    budget := [], fx := [], cash := [ { month := "2025-03", cash_usd := 1000 } ] }

/-- C4 counterexample: a snapshot with a non-empty Cash table and three
distinct Actuals months but no Revenue or COGS rows makes `cash_runway_now`
fail (KeyError raised inside `ebitda_by_month`) instead of returning the
record the claim describes. -/
theorem cash_runway_fields_cex :
    finC4x.cash ≠ [] ∧ 3 ≤ (sortedUnique (finC4x.actuals.map (·.month))).length ∧
    (cash_runway_now finC4x).isOk = false := by decide

def finW4 : FinanceData :=
  { actuals := [ { month := "2025-01", account_category := "Revenue", amount := 100,
                   currency := "USD" },
                 { month := "2025-01", account_category := "COGS", amount := 40,
                   currency := "USD" },
                 { month := "2025-02", account_category := "Revenue", amount := 100,
                   currency := "USD" },
                 { month := "2025-02", account_category := "COGS", amount := 40,
                   currency := "USD" },
                 { month := "2025-03", account_category := "Revenue", amount := 100,
                   currency := "USD" },
                 { month := "2025-03", account_category := "COGS", amount := 40,
                   currency := "USD" } ],
    budget := [],
    fx := [ { month := "2025-01", currency := "USD", rate_to_usd := 1 },
            { month := "2025-02", currency := "USD", rate_to_usd := 1 },
            { month := "2025-03", currency := "USD", rate_to_usd := 1 } ],
    cash := [ { month := "2025-03", cash_usd := 500 } ] }

/-- C4 witness: a concrete profitable snapshot satisfying all hypotheses. -/
theorem cash_runway_fields_witness :
    ∃ cr, cash_runway_now finW4 = .ok cr ∧
      some cr.as_of = latest_month ((finW4.cash.map (·.month)).dedup) ∧
      cr.avg_net_burn_usd =
        ((sliceLast 3 (sortedUnique (finW4.actuals.map (·.month)))).map
          (fun m => max 0 (-(ebitdaAt (to_usd finW4.actuals finW4.fx) m)))).sum / 3 ∧
      (cr.avg_net_burn_usd = 0 → cr.runway_months = .inf ∧
        cr.note = "Profitable over the last 3 months (no net burn). Runway: N/A") ∧
      (cr.avg_net_burn_usd ≠ 0 → ∃ c, cr.cash_usd = some c ∧
        cr.runway_months = .val (c / cr.avg_net_burn_usd) ∧
        cr.note = "~" ++ fmtFixed1 (c / cr.avg_net_burn_usd) ++ " months of runway") :=
  cash_runway_fields finW4 (by decide) (by decide) (by decide) (by decide)

/-! ## C8 -/

/-- C8: every row of `opex_breakdown_usd` has a category starting with
"Opex:", the rows are sorted by usd non-increasing, a month with no matching
rows gives the empty (still correctly-typed) frame, and on such an empty
result `respond` answers "No Opex data for <month>." with no chart. -/
theorem opex_breakdown_shape (fin : FinanceData) (month : MonthArg) :
    (∀ row ∈ opex_breakdown_usd fin month, isOpexCat row.account_category = true) ∧
    List.Sorted usdGe (opex_breakdown_usd fin month) ∧
    (fin.actuals.filter
        (fun r => r.month == month_str month && isOpexCat r.account_category) = [] →
      opex_breakdown_usd fin month = []) ∧
    (∀ text m, classify_intent text = "opex_breakdown" →
      resolveMonth (String.mk (trimChars text.toList)) fin = .ok m →
      opex_breakdown_usd fin (.str m) = [] →
      respond text fin = .ok ("No Opex data for " ++ m ++ ".", none)) := by
  refine ⟨?_, ?_, ?_, ?_⟩
  · intro row hrow
    unfold opex_breakdown_usd at hrow
    dsimp only at hrow
    split at hrow
    · cases hrow
    · rw [List.mem_insertionSort, List.mem_map] at hrow
      obtain ⟨c, hc, rfl⟩ := hrow
      have hc2 := mem_sortedUnique hc
      rw [List.mem_map] at hc2
      obtain ⟨r, hrf, hrc⟩ := hc2
      have hp := (List.mem_filter.mp hrf).2
      rw [Bool.and_eq_true] at hp
      dsimp only
      rw [← hrc]
      exact hp.2
  · unfold opex_breakdown_usd
    dsimp only
    split
    · exact List.sorted_nil
    · haveI : IsTotal OpexRow usdGe := ⟨fun a b => le_total b.usd a.usd⟩
      haveI : IsTrans OpexRow usdGe := ⟨fun a b c h1 h2 => le_trans h2 h1⟩
      exact List.sorted_insertionSort usdGe _
  · intro hfil
    unfold opex_breakdown_usd
    dsimp only
    rw [hfil]
    rfl
  · intro text m h1 h2 h3
    unfold respond
    dsimp only
    rw [h1]
    rw [if_neg (by decide : ¬("opex_breakdown" : String) = "revenue_vs_budget")]
    rw [if_neg (by decide : ¬("opex_breakdown" : String) = "gross_margin_trend")]
    rw [if_pos rfl]
    rw [h2]
    dsimp only
    rw [h3]
    rfl

def finW8 : FinanceData :=
  { actuals := [ { month := "2025-06", account_category := "Revenue", amount := 5,
                   currency := "USD" } ],
    budget := [], fx := [], cash := [] }

/-- C8 witness: asking for an opex breakdown against a snapshot with no Opex
rows produces the no-data message and no chart. -/
theorem opex_breakdown_shape_witness :
    respond "opex breakdown" finW8 = .ok ("No Opex data for " ++ "2025-06" ++ ".", none) :=
  (opex_breakdown_shape finW8 (.str "2025-06")).2.2.2 "opex breakdown" "2025-06"
    (by decide) (by decide) (by decide)
